import Mathlib

set_option maxRecDepth 4000

/-!
Shallow embedding of the CHIP-8 interpreter in `chip8.py` (class `Chip8` and
the buffer-manipulating part of class `UI`), together with theorems checking
the specification's claims about it.

Conventions of the embedding:
* Python bytearrays (`self.V`, `self.memory`) become `List Nat`; reads are
  `List.getD _ _ 0` and writes are `List.set` (the source never stores a value
  outside `0..255` on any reachable branch, so the bytearray range check never
  fires and is not modelled).
* The pixel buffer `UI.buffer` (a 64-element list of 32-element column lists,
  indexed `buffer[x][y]`) becomes `List (List Bool)`.
* The Python list used as call stack (`append`/`pop` at the same end) is
  modelled with the head of a `List Nat` as the top of the stack.
* Sources of nondeterminism or wall-clock time consulted by `emulate_cycle`
  (`randint`, `self.ui.keyboard`, `wait_key_event`, `time.time`) are passed in
  explicitly as an `Oracle` record.  The FX07 delay-timer read performs float
  arithmetic on wall-clock time; its already-floored result is taken from
  `Oracle.delayCurrent`.  No claim checked here touches those opcodes.
* Popping the empty stack (opcode 00EE) raises in Python; the step function
  returns `Option` and yields `none` exactly there.
* `log_error` calls (the unknown-opcode diagnostics) are modelled by an
  `errors` counter on the state.
-/

/-- External inputs consumed by one interpreter step: the random byte drawn by
opcode CXNN, the UI keyboard array, the key index returned by the blocking
key wait, the current wall-clock time, and the current (already floored)
delay-timer value read by FX07. -/
structure Oracle where
  rand : Nat
  keyboard : List Bool
  waitKey : Nat
  now : Nat
  delayCurrent : Nat
deriving DecidableEq, Repr

/-- Interpreter state: the fields of the Python `Chip8` object, plus the pixel
buffer owned by its `UI` collaborator and a counter of logged
unknown-opcode diagnostics. -/
structure Chip8 where
  n : Nat
  pc : Nat
  opcode : Nat
  I : Nat
  V : List Nat
  stack : List Nat
  memory : List Nat
  delayTimer : Nat × Nat
  soundTimer : Nat
  buffer : List (List Bool)
  errors : Nat
deriving DecidableEq, Repr

/-- Display width, `XXX` in the source. -/
def XXX : Nat := 64

/-- Display height, `YYY` in the source. -/
def YYY : Nat := 32

/-- The built-in 80-byte glyph font table `fonts`. -/
def fonts : List Nat :=
  [0xF0, 0x90, 0x90, 0x90, 0xF0,
   0x20, 0x60, 0x20, 0x20, 0x70,
   0xF0, 0x10, 0xF0, 0x80, 0xF0,
   0xF0, 0x10, 0xF0, 0x10, 0xF0,
   0x90, 0x90, 0xF0, 0x10, 0x10,
   0xF0, 0x80, 0xF0, 0x10, 0xF0,
   0xF0, 0x80, 0xF0, 0x90, 0xF0,
   0xF0, 0x10, 0x20, 0x40, 0x40,
   0xF0, 0x90, 0xF0, 0x90, 0xF0,
   0xF0, 0x90, 0xF0, 0x10, 0xF0,
   0xF0, 0x90, 0xF0, 0x90, 0x90,
   0xE0, 0x90, 0xE0, 0x90, 0xE0,
   0xF0, 0x80, 0x80, 0x80, 0xF0,
   0xE0, 0x90, 0x90, 0x90, 0xE0,
   0xF0, 0x80, 0xF0, 0x80, 0xF0,
   0xF0, 0x80, 0xF0, 0x80, 0x80]

/-- Writing a run of bytes into memory one index at a time, as the loops in
`Chip8.__init__` (font load) and `Chip8.load_rom` do. -/
def write_bytes : List Nat → Nat → List Nat → List Nat
  | memory, _, [] => memory
  | memory, base, b :: rest => write_bytes (memory.set base b) (base + 1) rest

/-- Buffer produced by `UI.clear_screen`: every pixel unset. -/
def clear_screen : List (List Bool) :=
  List.replicate XXX (List.replicate YYY false)

/-- `UI.draw_pixel`: toggle the pixel at `(x, y)` and report its previous
state (first component). -/
def draw_pixel (buf : List (List Bool)) (x y : Nat) : Bool × List (List Bool) :=
  let old := (buf.getD x []).getD y false
  (old, buf.set x ((buf.getD x []).set y (!old)))

/-- Inner loop of the DXYN sprite draw: eight iterations over one row byte,
testing the top bit, toggling a pixel when it is set, then shifting the row
left and moving one pixel right.  The last argument is the remaining
iteration count (`for _ in range(8)` starts at 8). -/
def drawRow : List (List Bool) → Nat → Nat → Nat → Bool → Nat → List (List Bool) × Bool
  | buf, _, _, _, erase, 0 => (buf, erase)
  | buf, line, x, y, erase, k + 1 =>
    if (line >>> 7) &&& 0x1 = 1 then
      let p := draw_pixel buf (x % XXX) (y % YYY)
      drawRow p.2 (line <<< 1) (x + 1) y (erase || p.1) k
    else
      drawRow buf (line <<< 1) (x + 1) y erase k

/-- Outer loop of the DXYN sprite draw: one `drawRow` per sprite byte, the
x start reset to the VX value for each row and y advancing by one. -/
def drawRows : List (List Bool) → List Nat → Nat → Nat → Bool → List (List Bool) × Bool
  | buf, [], _, _, erase => (buf, erase)
  | buf, line :: rest, vx, y, erase =>
    let p := drawRow buf line vx y erase 8
    drawRows p.1 rest vx (y + 1) p.2

/-- Specification-level reading of one sprite row, following the spec's words:
for each column `c` of the 8-wide row, from most-significant bit to
least-significant bit, if bit `7 - c` of the row byte is set, toggle the
pixel at `((vx + c) mod 64, (row coordinate) mod 32)`; the collision flag
accumulates every toggle that reported a previously set pixel. -/
def specRow : List (List Bool) → Nat → Nat → Nat → Bool → Nat → Nat → List (List Bool) × Bool
  | buf, _, _, _, erase, _, 0 => (buf, erase)
  | buf, line, vx, y, erase, c, k + 1 =>
    if (line >>> (7 - c)) &&& 0x1 = 1 then
      let p := draw_pixel buf ((vx + c) % 64) (y % 32)
      specRow p.2 line vx y (erase || p.1) (c + 1) k
    else
      specRow buf line vx y erase (c + 1) k

/-- Specification-level sprite draw: `specRow` on each row, with the row
coordinate advancing by one per row. -/
def specRows : List (List Bool) → List Nat → Nat → Nat → Bool → List (List Bool) × Bool
  | buf, [], _, _, erase => (buf, erase)
  | buf, line :: rest, vx, y, erase =>
    let p := specRow buf line vx y erase 0 8
    specRows p.1 rest vx (y + 1) p.2

/-- The loop of opcode FX55 (`reg_dump`): registers `0..k-1` stored at
`I..I+k-1`, in ascending order. -/
def reg_dump (memory V : List Nat) (I : Nat) : Nat → List Nat
  | 0 => memory
  | k + 1 => (reg_dump memory V I k).set (I + k) (V.getD k 0)

/-- The loop of opcode FX65 (`reg_load`): registers `0..k-1` filled from
`I..I+k-1`, in ascending order. -/
def reg_load (V memory : List Nat) (I : Nat) : Nat → List Nat
  | 0 => V
  | k + 1 => (reg_load V memory I k).set k (memory.getD (I + k) 0)

/-- The 8XYD ALU family: the `elif` chain on the low nibble `D` inside the
`A == 0x8` branch of `emulate_cycle`, translated branch for branch
(including the source's write order, which matters when a flag write
precedes a register read). -/
def opALU (s : Chip8) (X Y D : Nat) : Option Chip8 :=
  match D with
  | 0x0 => some { s with V := s.V.set X (s.V.getD Y 0) }
  | 0x1 => some { s with V := s.V.set X (s.V.getD X 0 ||| s.V.getD Y 0) }
  | 0x2 => some { s with V := s.V.set X (s.V.getD X 0 &&& s.V.getD Y 0) }
  | 0x3 => some { s with V := s.V.set X (s.V.getD X 0 ^^^ s.V.getD Y 0) }
  | 0x4 =>
    if s.V.getD X 0 + s.V.getD Y 0 > 0xFF then
      some { s with V := (s.V.set X ((s.V.getD X 0 + s.V.getD Y 0) &&& 0xFF)).set 0xF 1 }
    else
      some { s with V := (s.V.set X (s.V.getD X 0 + s.V.getD Y 0)).set 0xF 0 }
  | 0x5 =>
    if s.V.getD X 0 < s.V.getD Y 0 then
      some { s with V := (s.V.set X (s.V.getD Y 0 - s.V.getD X 0)).set 0xF 0 }
    else
      some { s with V := (s.V.set X (s.V.getD X 0 - s.V.getD Y 0)).set 0xF 1 }
  | 0x6 =>
    let V1 := s.V.set 0xF (s.V.getD X 0 &&& 0x1)
    some { s with V := V1.set X (V1.getD Y 0 >>> 1) }
  | 0x7 =>
    if s.V.getD Y 0 > s.V.getD X 0 then
      some { s with V := (s.V.set X (s.V.getD Y 0 - s.V.getD X 0)).set 0xF 1 }
    else
      some { s with V := (s.V.set X (s.V.getD X 0 - s.V.getD Y 0)).set 0xF 0 }
  | 0xE =>
    let V1 := s.V.set 0xF ((s.V.getD X 0 >>> 7) &&& 0x1)
    some { s with V := V1.set X ((V1.getD X 0 <<< 1) &&& 0xFF) }
  | _ => some { s with errors := s.errors + 1 }

/-- The 0xF opcode family: the `elif` chain on the low byte `YD` inside the
`A == 0xF` branch of `emulate_cycle`.  The FX18 branch is the source's
literal `pass`. -/
def opF (s : Chip8) (X YD : Nat) (ext : Oracle) : Option Chip8 :=
  match YD with
  | 0x07 => some { s with V := s.V.set X ext.delayCurrent }
  | 0x0A => some { s with V := s.V.set X ext.waitKey }
  | 0x15 => some { s with delayTimer := (s.V.getD X 0, ext.now) }
  | 0x18 => some s
  | 0x1E =>
    let V1 := if s.I + s.V.getD X 0 > 0xFFF then s.V.set 0xF 1 else s.V.set 0xF 0
    some { s with V := V1, I := (V1.getD X 0 + s.I) &&& 0xFFFF }
  | 0x29 => some { s with I := s.V.getD X 0 * 0x5 }
  | 0x33 =>
    let m1 := s.memory.set s.I (s.V.getD X 0 / 100)
    let m2 := m1.set (s.I + 1) (s.V.getD X 0 / 10 % 10)
    some { s with memory := m2.set (s.I + 2) (s.V.getD X 0 % 100) }
  | 0x55 => some { s with memory := reg_dump s.memory s.V s.I (X + 1) }
  | 0x65 => some { s with V := reg_load s.V s.memory s.I (X + 1) }
  | _ => some { s with errors := s.errors + 1 }

/-- Execution of one already-fetched instruction: the dispatch chain of
`emulate_cycle` after the program counter has been advanced.  `AX` is the
high instruction byte and `YD` the low one.  The Python `elif` chain on the
high nibble `A` (all sixteen values are covered, so the chain has no final
`else` and values above 15 cannot occur) is rendered as a match. -/
def execOp (s : Chip8) (AX YD : Nat) (ext : Oracle) : Option Chip8 :=
  let NN := YD
  let A := (AX &&& 0xF0) >>> 4
  let X := AX &&& 0x0F
  let Y := (YD &&& 0xF0) >>> 4
  let D := YD &&& 0x0F
  let NNN := (X <<< 8) ||| YD
  match A with
  | 0x0 =>
    if NNN = 0x0E0 then
      some { s with buffer := clear_screen }
    else if NNN = 0x0EE then
      match s.stack with
      | [] => none
      | a :: rest => some { s with pc := a, stack := rest }
    else
      some { s with errors := s.errors + 1 }
  | 0x1 => some { s with pc := NNN }
  | 0x2 => some { s with stack := s.pc :: s.stack, pc := NNN }
  | 0x3 => if s.V.getD X 0 = NN then some { s with pc := s.pc + 2 } else some s
  | 0x4 => if s.V.getD X 0 ≠ NN then some { s with pc := s.pc + 2 } else some s
  | 0x5 => if s.V.getD X 0 = s.V.getD Y 0 then some { s with pc := s.pc + 2 } else some s
  | 0x9 => if s.V.getD X 0 ≠ s.V.getD Y 0 then some { s with pc := s.pc + 2 } else some s
  | 0x6 => some { s with V := s.V.set X NN }
  | 0x7 =>
    if s.V.getD X 0 + NN > 0xFF then
      some { s with V := s.V.set X ((s.V.getD X 0 + NN) &&& 0xFF) }
    else
      some { s with V := s.V.set X (s.V.getD X 0 + NN) }
  | 0x8 => opALU s X Y D
  | 0xA => some { s with I := NNN }
  | 0xB => some { s with pc := (NNN + s.V.getD 0 0) &&& 0xFFFF }
  | 0xC => some { s with V := s.V.set X (ext.rand &&& NN) }
  | 0xD =>
    let p := drawRows s.buffer ((s.memory.drop s.I).take D) (s.V.getD X 0) (s.V.getD Y 0) false
    some { s with buffer := p.1, V := s.V.set 0xF (if p.2 then 1 else 0) }
  | 0xE =>
    if YD = 0x9E then
      if ext.keyboard.getD (s.V.getD X 0) false then some { s with pc := s.pc + 2 } else some s
    else if YD = 0xA1 then
      if ! ext.keyboard.getD (s.V.getD X 0) false then some { s with pc := s.pc + 2 } else some s
    else
      some { s with errors := s.errors + 1 }
  | 0xF => opF s X YD ext
  | _ => some s

/-- One full `emulate_cycle` call: fetch the two instruction bytes at `pc`,
bump the cycle counter, record the opcode, advance `pc` by 2, then execute. -/
def emulate_cycle (s : Chip8) (ext : Oracle) : Option Chip8 :=
  let AX := s.memory.getD s.pc 0
  let YD := s.memory.getD (s.pc + 1) 0
  execOp { s with n := s.n + 1, opcode := (AX <<< 8) ||| YD, pc := s.pc + 2 } AX YD ext

/-- The freshly constructed interpreter of `Chip8.__init__` (with the `UI`
collaborator's cleared buffer): `pc = 0x200`, zeroed registers and timers,
empty stack, and the font table written into the head of a zeroed
4096-byte memory. -/
def Chip8.new : Chip8 where
  n := 0
  pc := 0x200
  opcode := 0
  I := 0
  V := List.replicate 16 0
  stack := []
  memory := write_bytes (List.replicate 4096 0) 0 fonts
  delayTimer := (0, 0)
  soundTimer := 0
  buffer := clear_screen
  errors := 0

/-- `Chip8.load_rom`: the image bytes are written starting at `pc` (still
0x200 at load time), guarded by the source's assertion
`len(self.memory) - self.pc > length`; an image failing the guard is
rejected (`none`). -/
def load_rom (s : Chip8) (data : List Nat) : Option Chip8 :=
  if s.memory.length - s.pc > data.length then
    some { s with memory := write_bytes s.memory s.pc data }
  else
    none

/-- Register `i` of the state inside an optional result (0 for `none`). -/
def resultReg : Option Chip8 → Nat → Nat
  | none, _ => 0
  | some t, i => t.V.getD i 0

/-- Memory cell `a` of the state inside an optional result (0 for `none`). -/
def resultMem : Option Chip8 → Nat → Nat
  | none, _ => 0
  | some t, a => t.memory.getD a 0

/-- Address register of the state inside an optional result (0 for `none`). -/
def resultI : Option Chip8 → Nat
  | none => 0
  | some t => t.I

/-- Pixel buffer of the state inside an optional result. -/
def resultBuf : Option Chip8 → List (List Bool)
  | none => []
  | some t => t.buffer

/-- Program counter of the state inside an optional result (0 for `none`). -/
def resultPC : Option Chip8 → Nat
  | none => 0
  | some t => t.pc

/-- Diagnostic counter of the state inside an optional result (0 for `none`). -/
def resultErrors : Option Chip8 → Nat
  | none => 0
  | some t => t.errors

/-- Fixed external inputs used by the concrete test states; none of the
opcodes exercised with them consult any `Ext` field. -/
def ext0 : Oracle where
  rand := 0
  keyboard := List.replicate 16 false
  waitKey := 0
  now := 0
  delayCurrent := 0

/-- Fresh interpreter with `I = 0x20` and `V0 = 123`, about to run FX33. -/
def sBCD : Chip8 :=
  { Chip8.new with I := 0x20, V := (List.replicate 16 0).set 0 123 }

/-- Fresh interpreter with `V0 = 5`, about to run FX18. -/
def sSnd : Chip8 :=
  { Chip8.new with V := (List.replicate 16 0).set 0 5 }

/-- Fresh interpreter with `V0 = 0x10` (a value above 0xF), about to run
FX29. -/
def sGlyph : Chip8 :=
  { Chip8.new with V := (List.replicate 16 0).set 0 0x10 }

/-- Fresh interpreter with `V0 = 0xB` (a digit value), about to run FX29. -/
def sGlyphB : Chip8 :=
  { Chip8.new with V := (List.replicate 16 0).set 0 0xB }

/-- Fresh interpreter with `V0 = 5` and `V1 = 3`, for the 8XY7 else branch. -/
def sRev : Chip8 :=
  { Chip8.new with V := ((List.replicate 16 0).set 0 5).set 1 3 }

/-- Fresh interpreter with `V0 = 3` and `V1 = 5`, for the 8XY7 borrow
branch. -/
def sRevB : Chip8 :=
  { Chip8.new with V := ((List.replicate 16 0).set 0 3).set 1 5 }

/-- Fresh interpreter with `VF = 1`, for ADD with `X = Y = 0xF`. -/
def sAddF : Chip8 :=
  { Chip8.new with V := (List.replicate 16 0).set 0xF 1 }

/-- Fresh interpreter with `V0 = 200` and `V1 = 100`, for ADD with carry. -/
def sAddC : Chip8 :=
  { Chip8.new with V := ((List.replicate 16 0).set 0 200).set 1 100 }

/-- Fresh interpreter with `V0 = 0x05` and `V1 = 0x0A`, the first SUBTRACT
example of the spec. -/
def sSubA : Chip8 :=
  { Chip8.new with V := ((List.replicate 16 0).set 0 0x05).set 1 0x0A }

/-- Fresh interpreter with `V0 = 0x0A` and `V1 = 0x05`, the second SUBTRACT
example of the spec. -/
def sSubB : Chip8 :=
  { Chip8.new with V := ((List.replicate 16 0).set 0 0x0A).set 1 0x05 }

/-- Fresh interpreter with `VF = 0xB6` as shift source, for 8XY6 with
`Y = 0xF`. -/
def sShiftF : Chip8 :=
  { Chip8.new with V := (List.replicate 16 0).set 0xF 0xB6 }

/-- Fresh interpreter with `V2 = 0xB6`, for 8XY6 with distinct destination
and source. -/
def sShiftD : Chip8 :=
  { Chip8.new with V := (List.replicate 16 0).set 2 0xB6 }

/-- Fresh interpreter with `V3 = 0xB6`, for 8XY6 with destination equal to
source. -/
def sShiftS : Chip8 :=
  { Chip8.new with V := (List.replicate 16 0).set 3 0xB6 }

/-- Fresh interpreter with a single 0xFF sprite byte at `I = 0x50` (right
after the font table), about to draw it at `(V0, V0) = (0, 0)`. -/
def sDraw : Chip8 :=
  { Chip8.new with I := 0x50, memory := Chip8.new.memory.set 0x50 0xFF }

/-- Buffer with exactly the eight pixels `(0,0) .. (7,0)` set. -/
def buffer8 : List (List Bool) :=
  List.replicate 8 (true :: List.replicate 31 false) ++
    List.replicate 56 (List.replicate 32 false)

/-- State of `sDraw` after the first 0xFF sprite draw. -/
def sDrawB : Chip8 :=
  { sDraw with buffer := buffer8, V := (List.replicate 16 0).set 0xF 0 }

/-- Fresh interpreter whose first instruction is `0x5123` (high nibble 5 with
nonzero low nibble 3), with `pc = 0` pointing at it. -/
def sSkip : Chip8 :=
  { Chip8.new with pc := 0, memory := [0x51, 0x23] }

/-- Fresh interpreter whose first instruction is `0x9123`, with `pc = 0`
pointing at it and `V1 ≠ V2`. -/
def sSkipB : Chip8 :=
  { Chip8.new with pc := 0, memory := [0x91, 0x23], V := (List.replicate 16 0).set 1 7 }

theorem set_getD_same {α : Type} : ∀ (l : List α) (i : Nat) (a d : α),
    i < l.length → (l.set i a).getD i d = a := by
  intro l
  induction l with
  | nil => intro i a d h; simp at h
  | cons b t ih =>
    intro i a d h
    cases i with
    | zero => rfl
    | succ i =>
      simp only [List.set_cons_succ, List.getD_cons_succ]
      exact ih i a d (by simpa using h)

theorem set_getD_other {α : Type} : ∀ (l : List α) (i j : Nat) (a d : α),
    i ≠ j → (l.set i a).getD j d = l.getD j d := by
  intro l
  induction l with
  | nil => intro i j a d _; rfl
  | cons b t ih =>
    intro i j a d h
    cases i with
    | zero =>
      cases j with
      | zero => exact absurd rfl h
      | succ j => rfl
    | succ i =>
      cases j with
      | zero => rfl
      | succ j =>
        simp only [List.set_cons_succ, List.getD_cons_succ]
        exact ih i j a d (fun hh => h (by rw [hh]))

theorem getD_replicate_of_lt {α : Type} : ∀ (m i : Nat) (a d : α),
    i < m → (List.replicate m a).getD i d = a := by
  intro m
  induction m with
  | zero => intro i a d h; exact absurd h (Nat.not_lt_zero i)
  | succ m ih =>
    intro i a d h
    cases i with
    | zero => rfl
    | succ i => simpa [List.replicate_succ] using ih i a d (by omega)

theorem write_bytes_length : ∀ (data memory : List Nat) (base : Nat),
    (write_bytes memory base data).length = memory.length := by
  intro data
  induction data with
  | nil => intro memory base; rfl
  | cons b rest ih =>
    intro memory base
    simp only [write_bytes]
    rw [ih, List.length_set]

theorem write_bytes_getD_lt : ∀ (data memory : List Nat) (base j : Nat),
    j < base → (write_bytes memory base data).getD j 0 = memory.getD j 0 := by
  intro data
  induction data with
  | nil => intro memory base j _; rfl
  | cons b rest ih =>
    intro memory base j h
    simp only [write_bytes]
    rw [ih _ _ _ (by omega), set_getD_other _ _ _ _ _ (by omega)]

theorem write_bytes_getD : ∀ (data memory : List Nat) (base i : Nat),
    i < data.length → base + data.length ≤ memory.length →
    (write_bytes memory base data).getD (base + i) 0 = data.getD i 0 := by
  intro data
  induction data with
  | nil => intro memory base i h _; simp at h
  | cons b rest ih =>
    intro memory base i h hlen
    rw [List.length_cons] at hlen
    cases i with
    | zero =>
      simp only [write_bytes, Nat.add_zero, List.getD_cons_zero]
      rw [write_bytes_getD_lt rest _ (base + 1) base (by omega)]
      exact set_getD_same _ _ _ _ (by omega)
    | succ i =>
      simp only [write_bytes, List.getD_cons_succ]
      have hb : base + (i + 1) = (base + 1) + i := by omega
      rw [hb]
      exact ih _ (base + 1) i (by simpa using h) (by rw [List.length_set]; omega)

theorem low_nibble_lt {AX X : Nat} (h : AX &&& 0x0F = X) : X < 16 := by
  have h1 : AX &&& 0x0F ≤ 0x0F := Nat.and_le_right
  omega

theorem hi_nibble_lt {YD Y : Nat} (h : (YD &&& 0xF0) >>> 4 = Y) : Y < 16 := by
  have h1 : YD &&& 0xF0 ≤ 0xF0 := Nat.and_le_right
  have h2 : (YD &&& 0xF0) >>> 4 ≤ 0xF0 >>> 4 := by
    rw [Nat.shiftRight_eq_div_pow, Nat.shiftRight_eq_div_pow]
    exact Nat.div_le_div_right h1
  have h3 : (0xF0 : Nat) >>> 4 = 15 := by decide
  omega

theorem and_ff_eq_mod (n : Nat) : n &&& 0xFF = n % 256 := by
  have h : (0xFF : Nat) = 2 ^ 8 - 1 := by decide
  rw [h, Nat.and_pow_two_sub_one_eq_mod]

theorem shiftLeft_then_shiftRight7 (line c : Nat) (h : c ≤ 7) :
    (line <<< c) >>> 7 = line >>> (7 - c) := by
  rw [Nat.shiftLeft_eq, Nat.shiftRight_eq_div_pow, Nat.shiftRight_eq_div_pow]
  have h2 : (2 : Nat) ^ 7 = 2 ^ c * 2 ^ (7 - c) := by
    rw [← pow_add]
    congr 1
    omega
  rw [h2, mul_comm line (2 ^ c), Nat.mul_div_mul_left _ _ (Nat.two_pow_pos c)]

theorem drawRow_eq_specRow : ∀ (k c : Nat), c + k = 8 → ∀ buf line x y erase,
    drawRow buf (line <<< c) (x + c) y erase k = specRow buf line x y erase c k := by
  intro k
  induction k with
  | zero => intro c _ buf line x y erase; rfl
  | succ k ih =>
    intro c hc buf line x y erase
    have hc7 : c ≤ 7 := by omega
    have hbit : ((line <<< c) >>> 7) &&& 0x1 = (line >>> (7 - c)) &&& 0x1 := by
      rw [shiftLeft_then_shiftRight7 line c hc7]
    have hL : (line <<< c) <<< 1 = line <<< (c + 1) := (Nat.shiftLeft_add line c 1).symm
    have hx : x + c + 1 = x + (c + 1) := by omega
    simp only [drawRow, specRow, XXX, YYY, hbit, hL, hx]
    by_cases hb : (line >>> (7 - c)) &&& 0x1 = 1
    · rw [if_pos hb, if_pos hb]
      exact ih (c + 1) (by omega) _ line x y _
    · rw [if_neg hb, if_neg hb]
      exact ih (c + 1) (by omega) _ line x y _

theorem drawRows_eq_specRows : ∀ (rows : List Nat) (buf : List (List Bool)) (vx y : Nat) (erase : Bool),
    drawRows buf rows vx y erase = specRows buf rows vx y erase := by
  intro rows
  induction rows with
  | nil => intro buf vx y erase; rfl
  | cons line rest ih =>
    intro buf vx y erase
    have h0 := drawRow_eq_specRow 8 0 (by omega) buf line vx y erase
    rw [Nat.shiftLeft_zero, Nat.add_zero] at h0
    simp only [drawRows, specRows, h0]
    exact ih _ _ _ _

theorem execOp_family5 (s : Chip8) (ext : Oracle) (AX YD : Nat)
    (h : (AX &&& 0xF0) >>> 4 = 0x5) :
    execOp s AX YD ext =
      if s.V.getD (AX &&& 0x0F) 0 = s.V.getD ((YD &&& 0xF0) >>> 4) 0 then
        some { s with pc := s.pc + 2 }
      else some s := by
  simp only [execOp]
  rw [h]

theorem execOp_family9 (s : Chip8) (ext : Oracle) (AX YD : Nat)
    (h : (AX &&& 0xF0) >>> 4 = 0x9) :
    execOp s AX YD ext =
      if s.V.getD (AX &&& 0x0F) 0 ≠ s.V.getD ((YD &&& 0xF0) >>> 4) 0 then
        some { s with pc := s.pc + 2 }
      else some s := by
  simp only [execOp]
  rw [h]

theorem execOp_family8 (s : Chip8) (ext : Oracle) (AX YD : Nat)
    (h : (AX &&& 0xF0) >>> 4 = 0x8) :
    execOp s AX YD ext =
      opALU s (AX &&& 0x0F) ((YD &&& 0xF0) >>> 4) (YD &&& 0x0F) := by
  simp only [execOp]
  rw [h]

theorem execOp_familyF (s : Chip8) (ext : Oracle) (AX YD : Nat)
    (h : (AX &&& 0xF0) >>> 4 = 0xF) :
    execOp s AX YD ext = opF s (AX &&& 0x0F) YD ext := by
  simp only [execOp]
  rw [h]

theorem execOp_familyD (s : Chip8) (ext : Oracle) (AX YD : Nat)
    (h : (AX &&& 0xF0) >>> 4 = 0xD) :
    execOp s AX YD ext =
      some { s with
        buffer := (drawRows s.buffer ((s.memory.drop s.I).take (YD &&& 0x0F))
          (s.V.getD (AX &&& 0x0F) 0) (s.V.getD ((YD &&& 0xF0) >>> 4) 0) false).1,
        V := s.V.set 0xF
          (if (drawRows s.buffer ((s.memory.drop s.I).take (YD &&& 0x0F))
              (s.V.getD (AX &&& 0x0F) 0) (s.V.getD ((YD &&& 0xF0) >>> 4) 0) false).2
            then 1 else 0) } := by
  simp only [execOp]
  rw [h]

theorem emulate_cycle_eq (s : Chip8) (ext : Oracle) :
    emulate_cycle s ext =
      execOp { s with
          n := s.n + 1
          opcode := (s.memory.getD s.pc 0 <<< 8) ||| s.memory.getD (s.pc + 1) 0
          pc := s.pc + 2 }
        (s.memory.getD s.pc 0) (s.memory.getD (s.pc + 1) 0) ext := rfl

theorem opALU_4_eq (s : Chip8) (X Y : Nat) :
    opALU s X Y 0x4 =
      if s.V.getD X 0 + s.V.getD Y 0 > 0xFF then
        some { s with V := (s.V.set X ((s.V.getD X 0 + s.V.getD Y 0) &&& 0xFF)).set 0xF 1 }
      else
        some { s with V := (s.V.set X (s.V.getD X 0 + s.V.getD Y 0)).set 0xF 0 } := rfl

theorem opALU_5_eq (s : Chip8) (X Y : Nat) :
    opALU s X Y 0x5 =
      if s.V.getD X 0 < s.V.getD Y 0 then
        some { s with V := (s.V.set X (s.V.getD Y 0 - s.V.getD X 0)).set 0xF 0 }
      else
        some { s with V := (s.V.set X (s.V.getD X 0 - s.V.getD Y 0)).set 0xF 1 } := rfl

theorem opALU_6_eq (s : Chip8) (X Y : Nat) :
    opALU s X Y 0x6 =
      some { s with
        V := (s.V.set 0xF (s.V.getD X 0 &&& 0x1)).set X
          ((s.V.set 0xF (s.V.getD X 0 &&& 0x1)).getD Y 0 >>> 1) } := rfl

theorem opALU_7_eq (s : Chip8) (X Y : Nat) :
    opALU s X Y 0x7 =
      if s.V.getD Y 0 > s.V.getD X 0 then
        some { s with V := (s.V.set X (s.V.getD Y 0 - s.V.getD X 0)).set 0xF 1 }
      else
        some { s with V := (s.V.set X (s.V.getD X 0 - s.V.getD Y 0)).set 0xF 0 } := rfl

/-- C1: executing FX33 with `VX = 123` and `I = 0x20` writes the hundreds
digit 1 to `memory[I]` and the tens digit 2 to `memory[I+1]`, but writes
`123 % 100 = 23` — not the ones digit 3 — to `memory[I+2]`, contradicting
both the claim and the source's own comment (`the least significant digit
at I plus 2`). -/
theorem bcd_writes_tens_remainder :
    resultMem (execOp sBCD 0xF0 0x33 ext0) 0x20 = 1 ∧
    resultMem (execOp sBCD 0xF0 0x33 ext0) 0x21 = 2 ∧
    resultMem (execOp sBCD 0xF0 0x33 ext0) 0x22 = 23 ∧
    sBCD.V.getD 0 0 = 123 ∧ (23 : Nat) ≠ 3 := by
  refine ⟨rfl, rfl, rfl, by decide, by decide⟩

/-- C4: executing FX18 (set sound timer) with `V0 = 5` leaves the state —
including the sound timer, still 0 — completely unchanged, because the
source's FX18 branch is a bare `pass`, contradicting the claim and the
source's own comment (`Sets the sound timer to VX`). -/
theorem fx18_leaves_sound_timer :
    execOp sSnd 0xF0 0x18 ext0 = some sSnd ∧
    sSnd.V.getD 0 0 = 5 ∧ sSnd.soundTimer = 0 := by
  refine ⟨rfl, by decide, rfl⟩

/-- C5 counterexample: executing FX29 with `VX = 0x10` sets `I` to
`0x10 * 5 = 80`, not to `glyph base + 5 * (VX & 0xF) = 0` as the claim
predicts — the source applies no nibble masking. -/
theorem fx29_no_nibble_mask :
    resultI (execOp sGlyph 0xF0 0x29 ext0) = 80 ∧
    sGlyph.V.getD 0 0 = 0x10 ∧ (80 : Nat) ≠ 0x000 + 5 * (0x10 &&& 0xF) := by
  refine ⟨rfl, by decide, by decide⟩

/-- C5 (amended): executing FX29 sets `I` to `VX * 5` for every value of
`VX`, with no masking; for the in-range values `VX ≤ 0xF` this coincides
with glyph base `0x000` plus 5 times the low nibble of `VX`. -/
theorem fx29_sets_glyph_addr (s : Chip8) (ext : Oracle) (AX X : Nat)
    (hA : (AX &&& 0xF0) >>> 4 = 0xF) (hX : AX &&& 0x0F = X) :
    ∃ s', execOp s AX 0x29 ext = some s' ∧
      s'.I = s.V.getD X 0 * 5 ∧
      (s.V.getD X 0 ≤ 0xF → s'.I = 0x000 + 5 * (s.V.getD X 0 &&& 0xF)) := by
  have hE := execOp_familyF s ext AX 0x29 hA
  rw [hX] at hE
  refine ⟨{ s with I := s.V.getD X 0 * 0x5 }, by rw [hE]; rfl, rfl, ?_⟩
  intro hle
  have h1 : s.V.getD X 0 &&& 0xF = s.V.getD X 0 := by
    have h2 : (0xF : Nat) = 2 ^ 4 - 1 := by decide
    rw [h2, Nat.and_pow_two_sub_one_eq_mod]
    exact Nat.mod_eq_of_lt (by omega)
  rw [h1]
  show s.V.getD X 0 * 5 = 0 + 5 * s.V.getD X 0
  omega

/-- C5 witness: FX29 with `V0 = 0xB` sets `I = 55`, the address of glyph
`B`. -/
theorem fx29_sets_glyph_addr_witness :
    resultI (execOp sGlyphB 0xF0 0x29 ext0) = 55 ∧
    (55 : Nat) = 0x000 + 5 * (0xB &&& 0xF) := by
  obtain ⟨s', hE, h1, _⟩ := fx29_sets_glyph_addr sGlyphB ext0 0xF0 0 (by decide) (by decide)
  constructor
  · have h : resultI (execOp sGlyphB 0xF0 0x29 ext0) = s'.I := by rw [hE]; rfl
    rw [h, h1]
    decide
  · decide

/-- C3 counterexample: executing 8XY7 with `V0 = 5`, `V1 = 3` (so
`VY ≤ VX`) stores `VX - VY = 2` into the destination, not `VY - VX` as the
claim asserts for both branches (neither the wrapped byte 254 nor the
truncated 0). -/
theorem op8XY7_noborrow_stores_x_minus_y :
    resultReg (execOp sRev 0x80 0x17 ext0) 0 = 2 ∧
    resultReg (execOp sRev 0x80 0x17 ext0) 0xF = 0 ∧
    sRev.V.getD 0 0 = 5 ∧ sRev.V.getD 1 0 = 3 ∧
    (2 : Int) ≠ ((3 : Int) - 5) % 256 ∧ (2 : Nat) ≠ 3 - 5 := by
  refine ⟨by decide, by decide, by decide, by decide, by decide, by decide⟩

/-- C3 (amended): for 8XY7 with destination register `X ≠ 0xF`, VF becomes
1 when `VY > VX` and 0 otherwise, and the destination receives `VY - VX`
in the borrow-free branch but `VX - VY` — not `VY - VX` — in the other
branch. -/
theorem op8XY7_reverse_subtract (s : Chip8) (ext : Oracle) (AX YD X Y : Nat)
    (hA : (AX &&& 0xF0) >>> 4 = 0x8) (hX : AX &&& 0x0F = X)
    (hY : (YD &&& 0xF0) >>> 4 = Y) (hD : YD &&& 0x0F = 0x7)
    (hV : s.V.length = 16) (hXF : X ≠ 0xF) :
    ∃ s', execOp s AX YD ext = some s' ∧
      s'.V.getD 0xF 0 = (if s.V.getD Y 0 > s.V.getD X 0 then 1 else 0) ∧
      s'.V.getD X 0 =
        (if s.V.getD Y 0 > s.V.getD X 0 then s.V.getD Y 0 - s.V.getD X 0
         else s.V.getD X 0 - s.V.getD Y 0) := by
  have hE := execOp_family8 s ext AX YD hA
  rw [hX, hY, hD] at hE
  have hXlt : X < 16 := low_nibble_lt hX
  by_cases hgt : s.V.getD Y 0 > s.V.getD X 0
  · refine ⟨{ s with V := (s.V.set X (s.V.getD Y 0 - s.V.getD X 0)).set 0xF 1 }, ?_, ?_, ?_⟩
    · rw [hE, opALU_7_eq, if_pos hgt]
    · rw [if_pos hgt]
      exact set_getD_same _ _ _ _ (by rw [List.length_set]; omega)
    · rw [if_pos hgt, set_getD_other _ _ _ _ _ (Ne.symm hXF)]
      exact set_getD_same _ _ _ _ (by omega)
  · refine ⟨{ s with V := (s.V.set X (s.V.getD X 0 - s.V.getD Y 0)).set 0xF 0 }, ?_, ?_, ?_⟩
    · rw [hE, opALU_7_eq, if_neg hgt]
    · rw [if_neg hgt]
      exact set_getD_same _ _ _ _ (by rw [List.length_set]; omega)
    · rw [if_neg hgt, set_getD_other _ _ _ _ _ (Ne.symm hXF)]
      exact set_getD_same _ _ _ _ (by omega)

/-- C3 witness: 8XY7 on `V0 = 3, V1 = 5` stores `5 - 3 = 2` with VF = 1,
and on `V0 = 5, V1 = 3` stores `5 - 3 = 2` with VF = 0. -/
theorem op8XY7_reverse_subtract_witness :
    resultReg (execOp sRevB 0x80 0x17 ext0) 0 = 2 ∧
    resultReg (execOp sRevB 0x80 0x17 ext0) 0xF = 1 ∧
    resultReg (execOp sRev 0x80 0x17 ext0) 0 = 2 ∧
    resultReg (execOp sRev 0x80 0x17 ext0) 0xF = 0 := by
  obtain ⟨s1, hE1, hF1, hX1⟩ := op8XY7_reverse_subtract sRevB ext0 0x80 0x17 0 1
    (by decide) (by decide) (by decide) (by decide) (by decide) (by decide)
  obtain ⟨s2, hE2, hF2, hX2⟩ := op8XY7_reverse_subtract sRev ext0 0x80 0x17 0 1
    (by decide) (by decide) (by decide) (by decide) (by decide) (by decide)
  refine ⟨?_, ?_, ?_, ?_⟩
  · have h : resultReg (execOp sRevB 0x80 0x17 ext0) 0 = s1.V.getD 0 0 := by rw [hE1]; rfl
    rw [h, hX1]; decide
  · have h : resultReg (execOp sRevB 0x80 0x17 ext0) 0xF = s1.V.getD 0xF 0 := by rw [hE1]; rfl
    rw [h, hF1]; decide
  · have h : resultReg (execOp sRev 0x80 0x17 ext0) 0 = s2.V.getD 0 0 := by rw [hE2]; rfl
    rw [h, hX2]; decide
  · have h : resultReg (execOp sRev 0x80 0x17 ext0) 0xF = s2.V.getD 0xF 0 := by rw [hE2]; rfl
    rw [h, hF2]; decide

/-- C6 counterexample: ADD (8XY4) with `X = Y = 0xF` and `VF = 1` leaves the
result register `VF = 0` — the carry flag written after the sum overwrites
it — not `(1 + 1) mod 256 = 2` as the claim asserts for every pair of
register indices. -/
theorem op8XY4_vf_destination :
    resultReg (execOp sAddF 0x8F 0xF4 ext0) 0xF = 0 ∧
    sAddF.V.getD 0xF 0 = 1 ∧ (0 : Nat) ≠ (1 + 1) % 256 := by
  refine ⟨rfl, by decide, by decide⟩

/-- C6 (amended): for ADD (8XY4) with pre-state values `a = VX`, `b = VY`,
VF always ends as the carry flag (1 iff `a + b > 255`), and for every
destination `X ≠ 0xF` the result register ends as `(a + b) mod 256`; when
`X = 0xF` the carry flag overwrites the sum. -/
theorem op8XY4_add_carry (s : Chip8) (ext : Oracle) (AX YD X Y : Nat)
    (hA : (AX &&& 0xF0) >>> 4 = 0x8) (hX : AX &&& 0x0F = X)
    (hY : (YD &&& 0xF0) >>> 4 = Y) (hD : YD &&& 0x0F = 0x4)
    (hV : s.V.length = 16) :
    ∃ s', execOp s AX YD ext = some s' ∧
      s'.V.getD 0xF 0 = (if s.V.getD X 0 + s.V.getD Y 0 > 0xFF then 1 else 0) ∧
      (X ≠ 0xF → s'.V.getD X 0 = (s.V.getD X 0 + s.V.getD Y 0) % 256) := by
  have hE := execOp_family8 s ext AX YD hA
  rw [hX, hY, hD] at hE
  have hXlt : X < 16 := low_nibble_lt hX
  by_cases hc : s.V.getD X 0 + s.V.getD Y 0 > 0xFF
  · refine ⟨{ s with V := (s.V.set X ((s.V.getD X 0 + s.V.getD Y 0) &&& 0xFF)).set 0xF 1 },
      ?_, ?_, ?_⟩
    · rw [hE, opALU_4_eq, if_pos hc]
    · rw [if_pos hc]
      exact set_getD_same _ _ _ _ (by rw [List.length_set]; omega)
    · intro hXF
      rw [set_getD_other _ _ _ _ _ (Ne.symm hXF),
        set_getD_same _ _ _ _ (by omega), and_ff_eq_mod]
  · refine ⟨{ s with V := (s.V.set X (s.V.getD X 0 + s.V.getD Y 0)).set 0xF 0 }, ?_, ?_, ?_⟩
    · rw [hE, opALU_4_eq, if_neg hc]
    · rw [if_neg hc]
      exact set_getD_same _ _ _ _ (by rw [List.length_set]; omega)
    · intro hXF
      rw [set_getD_other _ _ _ _ _ (Ne.symm hXF), set_getD_same _ _ _ _ (by omega)]
      exact (Nat.mod_eq_of_lt (by omega)).symm

/-- C6 witness: ADD on `V0 = 200, V1 = 100` yields `V0 = 44` and `VF = 1`. -/
theorem op8XY4_add_carry_witness :
    resultReg (execOp sAddC 0x80 0x14 ext0) 0 = 44 ∧
    resultReg (execOp sAddC 0x80 0x14 ext0) 0xF = 1 := by
  obtain ⟨s', hE, hF, hXv⟩ := op8XY4_add_carry sAddC ext0 0x80 0x14 0 1
    (by decide) (by decide) (by decide) (by decide) (by decide)
  constructor
  · have h : resultReg (execOp sAddC 0x80 0x14 ext0) 0 = s'.V.getD 0 0 := by rw [hE]; rfl
    rw [h, hXv (by decide)]
    decide
  · have h : resultReg (execOp sAddC 0x80 0x14 ext0) 0xF = s'.V.getD 0xF 0 := by rw [hE]; rfl
    rw [h, hF]
    decide

/-- C7: for SUBTRACT (8XY5) with destination register `X ≠ 0xF`, when
`VX < VY` the destination receives `VY - VX` and VF becomes 0, otherwise
the destination receives `VX - VY` and VF becomes 1. -/
theorem op8XY5_subtract (s : Chip8) (ext : Oracle) (AX YD X Y : Nat)
    (hA : (AX &&& 0xF0) >>> 4 = 0x8) (hX : AX &&& 0x0F = X)
    (hY : (YD &&& 0xF0) >>> 4 = Y) (hD : YD &&& 0x0F = 0x5)
    (hV : s.V.length = 16) (hXF : X ≠ 0xF) :
    ∃ s', execOp s AX YD ext = some s' ∧
      s'.V.getD X 0 =
        (if s.V.getD X 0 < s.V.getD Y 0 then s.V.getD Y 0 - s.V.getD X 0
         else s.V.getD X 0 - s.V.getD Y 0) ∧
      s'.V.getD 0xF 0 = (if s.V.getD X 0 < s.V.getD Y 0 then 0 else 1) := by
  have hE := execOp_family8 s ext AX YD hA
  rw [hX, hY, hD] at hE
  have hXlt : X < 16 := low_nibble_lt hX
  by_cases hlt : s.V.getD X 0 < s.V.getD Y 0
  · refine ⟨{ s with V := (s.V.set X (s.V.getD Y 0 - s.V.getD X 0)).set 0xF 0 }, ?_, ?_, ?_⟩
    · rw [hE, opALU_5_eq, if_pos hlt]
    · rw [if_pos hlt, set_getD_other _ _ _ _ _ (Ne.symm hXF)]
      exact set_getD_same _ _ _ _ (by omega)
    · rw [if_pos hlt]
      exact set_getD_same _ _ _ _ (by rw [List.length_set]; omega)
  · refine ⟨{ s with V := (s.V.set X (s.V.getD X 0 - s.V.getD Y 0)).set 0xF 1 }, ?_, ?_, ?_⟩
    · rw [hE, opALU_5_eq, if_neg hlt]
    · rw [if_neg hlt, set_getD_other _ _ _ _ _ (Ne.symm hXF)]
      exact set_getD_same _ _ _ _ (by omega)
    · rw [if_neg hlt]
      exact set_getD_same _ _ _ _ (by rw [List.length_set]; omega)

/-- C7 witness: SUBTRACT on `a = 0x05, b = 0x0A` yields result 0x05 with
VF = 0, and on `a = 0x0A, b = 0x05` yields result 0x05 with VF = 1. -/
theorem op8XY5_subtract_witness :
    resultReg (execOp sSubA 0x80 0x15 ext0) 0 = 0x05 ∧
    resultReg (execOp sSubA 0x80 0x15 ext0) 0xF = 0 ∧
    resultReg (execOp sSubB 0x80 0x15 ext0) 0 = 0x05 ∧
    resultReg (execOp sSubB 0x80 0x15 ext0) 0xF = 1 := by
  obtain ⟨s1, hE1, hX1, hF1⟩ := op8XY5_subtract sSubA ext0 0x80 0x15 0 1
    (by decide) (by decide) (by decide) (by decide) (by decide) (by decide)
  obtain ⟨s2, hE2, hX2, hF2⟩ := op8XY5_subtract sSubB ext0 0x80 0x15 0 1
    (by decide) (by decide) (by decide) (by decide) (by decide) (by decide)
  refine ⟨?_, ?_, ?_, ?_⟩
  · have h : resultReg (execOp sSubA 0x80 0x15 ext0) 0 = s1.V.getD 0 0 := by rw [hE1]; rfl
    rw [h, hX1]; decide
  · have h : resultReg (execOp sSubA 0x80 0x15 ext0) 0xF = s1.V.getD 0xF 0 := by rw [hE1]; rfl
    rw [h, hF1]; decide
  · have h : resultReg (execOp sSubB 0x80 0x15 ext0) 0 = s2.V.getD 0 0 := by rw [hE2]; rfl
    rw [h, hX2]; decide
  · have h : resultReg (execOp sSubB 0x80 0x15 ext0) 0xF = s2.V.getD 0xF 0 := by rw [hE2]; rfl
    rw [h, hF2]; decide

/-- C8 counterexample: shift-right (8XY6) with destination `X = 0`, source
`Y = 0xF` and `VF = 0xB6` stores 0 into the destination — the flag write
`VF := V0 & 1` happens before the source is read, clobbering it — not the
claimed `0xB6 >> 1 = 0x5B`. -/
theorem op8XY6_vf_source_clobbered :
    resultReg (execOp sShiftF 0x80 0xF6 ext0) 0 = 0 ∧
    sShiftF.V.getD 0xF 0 = 0xB6 ∧ (0 : Nat) ≠ 0xB6 >>> 1 := by
  refine ⟨rfl, by decide, by decide⟩

/-- C8 (amended): for shift-right (8XY6) with destination `X ≠ 0xF` and
source `Y ≠ 0xF` (equal or distinct), VF receives the pre-shift least
significant bit of the destination `VX` and the destination receives the
source value `VY` shifted right by one; when register 0xF is the source,
the preceding flag write clobbers the value that is shifted. -/
theorem op8XY6_shift_right (s : Chip8) (ext : Oracle) (AX YD X Y : Nat)
    (hA : (AX &&& 0xF0) >>> 4 = 0x8) (hX : AX &&& 0x0F = X)
    (hY : (YD &&& 0xF0) >>> 4 = Y) (hD : YD &&& 0x0F = 0x6)
    (hV : s.V.length = 16) (hXF : X ≠ 0xF) (hYF : Y ≠ 0xF) :
    ∃ s', execOp s AX YD ext = some s' ∧
      s'.V.getD 0xF 0 = s.V.getD X 0 &&& 0x1 ∧
      s'.V.getD X 0 = s.V.getD Y 0 >>> 1 := by
  have hE := execOp_family8 s ext AX YD hA
  rw [hX, hY, hD] at hE
  have hXlt : X < 16 := low_nibble_lt hX
  have hY2 : (s.V.set 0xF (s.V.getD X 0 &&& 0x1)).getD Y 0 = s.V.getD Y 0 :=
    set_getD_other _ _ _ _ _ (fun hh => hYF hh.symm)
  refine ⟨_, by rw [hE, opALU_6_eq], ?_, ?_⟩
  · rw [set_getD_other _ _ _ _ _ hXF]
    exact set_getD_same _ _ _ _ (by omega)
  · rw [set_getD_same _ _ _ _ (by rw [List.length_set]; omega), hY2]

/-- C8 witness: with source value 0xB6 the destination becomes 0x5B and VF
becomes 0, both for distinct registers (`X = 1`, `Y = 2`) and for
destination equal to source (`X = Y = 3`). -/
theorem op8XY6_shift_right_witness :
    resultReg (execOp sShiftD 0x81 0x26 ext0) 1 = 0x5B ∧
    resultReg (execOp sShiftD 0x81 0x26 ext0) 0xF = 0 ∧
    resultReg (execOp sShiftS 0x83 0x36 ext0) 3 = 0x5B ∧
    resultReg (execOp sShiftS 0x83 0x36 ext0) 0xF = 0 := by
  obtain ⟨s1, hE1, hF1, hX1⟩ := op8XY6_shift_right sShiftD ext0 0x81 0x26 1 2
    (by decide) (by decide) (by decide) (by decide) (by decide) (by decide) (by decide)
  obtain ⟨s2, hE2, hF2, hX2⟩ := op8XY6_shift_right sShiftS ext0 0x83 0x36 3 3
    (by decide) (by decide) (by decide) (by decide) (by decide) (by decide) (by decide)
  refine ⟨?_, ?_, ?_, ?_⟩
  · have h : resultReg (execOp sShiftD 0x81 0x26 ext0) 1 = s1.V.getD 1 0 := by rw [hE1]; rfl
    rw [h, hX1]; decide
  · have h : resultReg (execOp sShiftD 0x81 0x26 ext0) 0xF = s1.V.getD 0xF 0 := by rw [hE1]; rfl
    rw [h, hF1]; decide
  · have h : resultReg (execOp sShiftS 0x83 0x36 ext0) 3 = s2.V.getD 3 0 := by rw [hE2]; rfl
    rw [h, hX2]; decide
  · have h : resultReg (execOp sShiftS 0x83 0x36 ext0) 0xF = s2.V.getD 0xF 0 := by rw [hE2]; rfl
    rw [h, hF2]; decide

theorem new_memory_length : Chip8.new.memory.length = 4096 := by
  show (write_bytes (List.replicate 4096 0) 0 fonts).length = 4096
  rw [write_bytes_length, List.length_replicate]

theorem load_none_iff (data : List Nat) :
    load_rom Chip8.new data = none ↔ 3584 ≤ data.length := by
  have hm := new_memory_length
  have hp : Chip8.new.pc = 0x200 := rfl
  unfold load_rom
  by_cases h : Chip8.new.memory.length - Chip8.new.pc > data.length
  · rw [if_pos h]
    constructor
    · intro h'
      exact absurd h' (by simp)
    · intro hlen
      rw [hm, hp] at h
      omega
  · rw [if_neg h]
    constructor
    · intro _
      rw [hm, hp] at h
      omega
    · intro _
      rfl

/-- C2 counterexample: an image of exactly 3584 bytes does not exceed
`4096 - 0x200`, yet `load_rom` rejects it — its guard
`len(memory) - pc > length` demands a strict inequality. -/
theorem load_rom_exact_3584_fails :
    (List.replicate 3584 2).length = 3584 ∧
    ¬ ((List.replicate 3584 2).length > 4096 - 0x200) ∧
    load_rom Chip8.new (List.replicate 3584 2) = none := by
  refine ⟨List.length_replicate _ _, ?_, ?_⟩
  · rw [List.length_replicate]
    decide
  · rw [load_none_iff, List.length_replicate]

/-- C2 (amended): loading fails exactly when the image length is at least
3584 bytes (that is, strictly more than 3583): a 3584-byte image is
rejected, while any 3583-byte image loads, its bytes landing at
`0x200 + i` so that the last byte lands at address 0xFFE. -/
theorem load_rom_threshold :
    (∀ data : List Nat, load_rom Chip8.new data = none ↔ 3584 ≤ data.length) ∧
    (∀ data : List Nat, data.length = 3583 →
      ∃ s', load_rom Chip8.new data = some s' ∧
        ∀ i, i < 3583 → s'.memory.getD (0x200 + i) 0 = data.getD i 0) := by
  constructor
  · exact load_none_iff
  · intro data hlen
    have hm := new_memory_length
    have hp : Chip8.new.pc = 0x200 := rfl
    have hcond : Chip8.new.memory.length - Chip8.new.pc > data.length := by
      rw [hm, hp, hlen]
      decide
    refine ⟨{ Chip8.new with memory := write_bytes Chip8.new.memory Chip8.new.pc data },
      ?_, ?_⟩
    · unfold load_rom
      rw [if_pos hcond]
    · intro i hi
      show (write_bytes Chip8.new.memory Chip8.new.pc data).getD (0x200 + i) 0 = data.getD i 0
      rw [hp]
      exact write_bytes_getD data _ 0x200 i (by omega) (by rw [hm, hlen]; omega)

/-- C2 witness: the 3584-byte image is rejected while a 3583-byte image of
sevens loads with its last byte, a 7, at address 0xFFE. -/
theorem load_rom_threshold_witness :
    load_rom Chip8.new (List.replicate 3584 2) = none ∧
    resultMem (load_rom Chip8.new (List.replicate 3583 7)) 0xFFE = 7 := by
  constructor
  · exact (load_rom_threshold.1 _).mpr (by rw [List.length_replicate])
  · obtain ⟨s', hE, hAll⟩ := load_rom_threshold.2 (List.replicate 3583 7)
      (List.length_replicate _ _)
    have h1 : resultMem (load_rom Chip8.new (List.replicate 3583 7)) 0xFFE =
        s'.memory.getD 0xFFE 0 := by rw [hE]; rfl
    have h2 := hAll 3582 (by omega)
    rw [show (0xFFE : Nat) = 0x200 + 3582 from by norm_num] at h1
    rw [h1, h2, getD_replicate_of_lt _ _ _ _ (by omega)]

/-- C9: the sprite-draw loops of DXYN coincide with the specification-level
description — each set bit of each row toggles the pixel at
`((VX + column) mod 64, (VY + row) mod 32)` and the collision flag is the
disjunction of all previously-set reports; for a 0xD-family instruction
`execOp` paints via those loops and puts the flag (1 on any erase, else 0)
into VF; concretely, drawing one 0xFF row at `(0, 0)` on a cleared display
sets the eight pixels `(0,0)..(7,0)` with `VF = 0`, and drawing it again
clears them with `VF = 1`. -/
theorem dxyn_sprite_draw :
    (∀ (buf : List (List Bool)) (rows : List Nat) (vx y : Nat) (erase : Bool),
      drawRows buf rows vx y erase = specRows buf rows vx y erase) ∧
    (∀ (s : Chip8) (ext : Oracle) (AX YD : Nat), (AX &&& 0xF0) >>> 4 = 0xD →
      execOp s AX YD ext =
        some { s with
          buffer := (specRows s.buffer ((s.memory.drop s.I).take (YD &&& 0x0F))
            (s.V.getD (AX &&& 0x0F) 0) (s.V.getD ((YD &&& 0xF0) >>> 4) 0) false).1
          V := s.V.set 0xF
            (if (specRows s.buffer ((s.memory.drop s.I).take (YD &&& 0x0F))
                (s.V.getD (AX &&& 0x0F) 0) (s.V.getD ((YD &&& 0xF0) >>> 4) 0) false).2
              then 1 else 0) }) ∧
    execOp sDraw 0xD0 0x01 ext0 = some sDrawB ∧
    execOp sDrawB 0xD0 0x01 ext0 =
      some { sDrawB with buffer := clear_screen, V := (List.replicate 16 0).set 0xF 1 } := by
  refine ⟨?_, ?_, rfl, rfl⟩
  · intro buf rows vx y erase
    exact drawRows_eq_specRows rows buf vx y erase
  · intro s ext AX YD hA
    rw [execOp_familyD s ext AX YD hA, drawRows_eq_specRows]

/-- C9 witness: instantiating the 0xD dispatch equation at the concrete
first draw, the resulting buffer is the specification-level one and VF
reports no collision. -/
theorem dxyn_sprite_draw_witness :
    resultBuf (execOp sDraw 0xD0 0x01 ext0) =
      (specRows sDraw.buffer ((sDraw.memory.drop sDraw.I).take (0x01 &&& 0x0F))
        (sDraw.V.getD (0xD0 &&& 0x0F) 0) (sDraw.V.getD ((0x01 &&& 0xF0) >>> 4) 0) false).1 ∧
    resultReg (execOp sDraw 0xD0 0x01 ext0) 0xF = 0 := by
  constructor
  · rw [dxyn_sprite_draw.2.1 sDraw ext0 0xD0 0x01 (by decide)]
    rfl
  · rw [dxyn_sprite_draw.2.1 sDraw ext0 0xD0 0x01 (by decide)]
    rfl

/-- C10: an instruction word with high nibble 0x5 (resp. 0x9) executes the
register-to-register equality (resp. inequality) skip regardless of its
low nibble — the dispatch never inspects `D` in these families — recording
no diagnostic and leaving `pc` at old `pc + 4` when the comparison holds
and old `pc + 2` otherwise. -/
theorem skip_ops_ignore_low_nibble (s : Chip8) (ext : Oracle) (AX YD X Y : Nat)
    (hAX : s.memory.getD s.pc 0 = AX) (hYD : s.memory.getD (s.pc + 1) 0 = YD)
    (hX : AX &&& 0x0F = X) (hY : (YD &&& 0xF0) >>> 4 = Y) :
    (((AX &&& 0xF0) >>> 4 = 0x5 →
      ∃ s', emulate_cycle s ext = some s' ∧ s'.errors = s.errors ∧
        s'.pc = (if s.V.getD X 0 = s.V.getD Y 0 then s.pc + 4 else s.pc + 2))) ∧
    (((AX &&& 0xF0) >>> 4 = 0x9 →
      ∃ s', emulate_cycle s ext = some s' ∧ s'.errors = s.errors ∧
        s'.pc = (if s.V.getD X 0 ≠ s.V.getD Y 0 then s.pc + 4 else s.pc + 2))) := by
  have hE := emulate_cycle_eq s ext
  rw [hAX, hYD] at hE
  constructor
  · intro hA
    have hD := execOp_family5
      { s with n := s.n + 1, opcode := (AX <<< 8) ||| YD, pc := s.pc + 2 } ext AX YD hA
    rw [hX, hY] at hD
    rw [hE, hD]
    by_cases hc : s.V.getD X 0 = s.V.getD Y 0
    · rw [if_pos hc]
      exact ⟨_, rfl, rfl, by rw [if_pos hc]⟩
    · rw [if_neg hc]
      exact ⟨_, rfl, rfl, by rw [if_neg hc]⟩
  · intro hA
    have hD := execOp_family9
      { s with n := s.n + 1, opcode := (AX <<< 8) ||| YD, pc := s.pc + 2 } ext AX YD hA
    rw [hX, hY] at hD
    rw [hE, hD]
    by_cases hc : s.V.getD X 0 = s.V.getD Y 0
    · rw [if_neg (by simpa using hc)]
      exact ⟨_, rfl, rfl, by rw [if_neg (by simpa using hc)]⟩
    · rw [if_pos hc]
      exact ⟨_, rfl, rfl, by rw [if_pos hc]⟩

/-- C10 witness: on a fresh interpreter, instruction `0x5123` (low nibble 3)
skips — `pc` goes from 0 to 4 with no diagnostic — because `V1 = V2`, and
instruction `0x9123` skips because `V1 = 7 ≠ V2`. -/
theorem skip_ops_ignore_low_nibble_witness :
    resultPC (emulate_cycle sSkip ext0) = 4 ∧
    resultErrors (emulate_cycle sSkip ext0) = 0 ∧
    resultPC (emulate_cycle sSkipB ext0) = 4 ∧
    resultErrors (emulate_cycle sSkipB ext0) = 0 := by
  obtain ⟨s1, h1, he1, hp1⟩ := (skip_ops_ignore_low_nibble sSkip ext0 0x51 0x23 1 2
    (by decide) (by decide) (by decide) (by decide)).1 (by decide)
  obtain ⟨s2, h2, he2, hp2⟩ := (skip_ops_ignore_low_nibble sSkipB ext0 0x91 0x23 1 2
    (by decide) (by decide) (by decide) (by decide)).2 (by decide)
  refine ⟨?_, ?_, ?_, ?_⟩
  · have h : resultPC (emulate_cycle sSkip ext0) = s1.pc := by rw [h1]; rfl
    rw [h, hp1]
    decide
  · have h : resultErrors (emulate_cycle sSkip ext0) = s1.errors := by rw [h1]; rfl
    rw [h, he1]
    decide
  · have h : resultPC (emulate_cycle sSkipB ext0) = s2.pc := by rw [h2]; rfl
    rw [h, hp2]
    decide
  · have h : resultErrors (emulate_cycle sSkipB ext0) = s2.errors := by rw [h2]; rfl
    rw [h, he2]
    decide
